import Mathlib

/-!
# Verification of the FormGenius form-resolution and filling engine

Shallow embedding of the core of the FormGenius repository:

* `DataGenerator.generate_form_data` / `_generate_field_value` /
  `_determine_data_type` and the rule-based strategies
  (`src/formgenius/core/data_generator.py`),
* the JSON-extraction pipeline of `AIService.batch_generate_field_values`
  (`src/formgenius/core/ai_service.py`),
* `FormGeniusAgent._fill_form_fields` (`src/formgenius/core/agent.py`),
* the option matcher `_fill_select_field` and the date/time normalizers of
  `PlaywrightMCPClient` (`src/formgenius/integrations/playwright_mcp.py`),
* the 2FA poll loop of `MicrosoftAuthenticator._handle_2fa`
  (`src/formgenius/auth/microsoft_auth.py`).

External effects (the Gemini model, `faker`, `random`, the live browser
page) are passed in as explicit oracle/environment structures; machine-level
behaviour of Python builtins used by the code (`in` on strings, `str.split`,
`str.zfill`, truthiness of `x or y`) is embedded as executable Lean
functions.
-/

namespace FormGenius

/-! ## Python string builtins -/

/-- Python `needle in hay` on lists of characters: `needle` occurs as a
contiguous sublist of `hay`. -/
def isSubLst (needle : List Char) : List Char → Bool
  | [] => needle.isEmpty
  | c :: t => needle.isPrefixOf (c :: t) || isSubLst needle t

/-- Python `needle in hay` for strings (substring test). -/
def pyIn (needle hay : String) : Bool :=
  isSubLst needle.toList hay.toList

/-- Python `s.split(sep)` for a one-character separator, on lists of
characters.  `split` on the empty list gives `[[]]`, matching
`"".split('/') == ['']`. -/
def splitChar (sep : Char) : List Char → List (List Char)
  | [] => [[]]
  | c :: cs =>
    match splitChar sep cs with
    | [] => [[]]
    | g :: gs => if c = sep then [] :: g :: gs else (c :: g) :: gs

/-- Python `s.split(sep)` for strings with a one-character separator. -/
def pySplit (sep : Char) (s : String) : List String :=
  (splitChar sep s.toList).map List.asString

/-- Python `s.zfill(width)`: left-pad with `'0'` to the requested width,
keeping a leading sign in front of the padding. -/
def pyZfill (width : Nat) (s : String) : String :=
  let cs := s.toList
  match cs with
  | c :: rest =>
    if c = '+' ∨ c = '-' then
      String.mk (c :: (List.replicate (width - cs.length) '0' ++ rest))
    else
      String.mk (List.replicate (width - cs.length) '0' ++ cs)
  | [] => String.mk (List.replicate width '0')

/-- Python truthiness of `a or b` over optional strings (`None` and `""` are
falsy): models `field.get('name') or field.get('id')`. -/
def pyOrStr (a b : Option String) : Option String :=
  match a with
  | some s => if s = "" then (match b with
      | some t => if t = "" then none else some t
      | none => none) else some s
  | none => match b with
    | some t => if t = "" then none else some t
    | none => none

/-- Python `str.lower` (ASCII case folding, which is all the source's
keyword tests rely on). -/
def pyLower (s : String) : String := (s.toList.map Char.toLower).asString

/-- Python whitespace for `str.strip`. -/
def pyIsSpace (c : Char) : Bool :=
  c = ' ' || c = '\t' || c = '\n' || c = '\x0d' || c = '\x0b' || c = '\x0c'

/-- Python `str.strip()`: remove leading and trailing whitespace. -/
def pyStrip (s : String) : String :=
  (((s.toList.dropWhile pyIsSpace).reverse.dropWhile pyIsSpace).reverse).asString

/-- Python slice `s[:n]`. -/
def pyTake (n : Nat) (s : String) : String := (s.toList.take n).asString

/-- Python slice `s[n:]`. -/
def pyDrop (n : Nat) (s : String) : String := (s.toList.drop n).asString

/-- Python `len(s)`. -/
def pyLen (s : String) : Nat := s.toList.length

/-- Python `any(k in hay for k in keywords)`. -/
def anyKeywordIn (keywords : List String) (hay : String) : Bool :=
  keywords.any (fun k => pyIn k hay)

/-! ## Data model

`FieldSchema` as produced by the external `FormDetector` scanner
(`form_detector.py` builds dicts with keys `name`, `id`, `type`, `label`,
`placeholder`, `required`, `constraints`, `options`, `selector`).
`minlength`/`maxlength` are parsed to `int` by the scanner; `min`/`max` are
carried as raw attribute strings. -/

/-- One `{value, text}` entry of a select/radio field's `options`. -/
structure OptionItem where
  value : String
  text : String
  deriving DecidableEq, Repr

/-- Constraints dict of a field (`form_detector.py` lines 219-229). -/
structure Constraints where
  minlength : Option Int := none
  maxlength : Option Int := none
  min : Option String := none
  max : Option String := none
  pattern : Option String := none
  deriving DecidableEq, Repr

/-- A raw field descriptor (`FieldSchema`).  `none` models an absent dict
key (Python `.get` returning `None`). -/
structure Field where
  name : Option String := none
  id : Option String := none
  ftype : Option String := none
  label : Option String := none
  placeholder : Option String := none
  required : Bool := false
  constraints : Constraints := {}
  options : List OptionItem := []
  selector : Option String := none
  deriving DecidableEq, Repr

/-- A form: the `fields` list (submit descriptor is irrelevant to the
resolution claims). -/
structure Form where
  fields : List Field
  deriving DecidableEq, Repr

/-- A credential hint discovered on the page (`page_context['credentials']`
entries, accessed as `cred['type']` / `cred['value']` in
`data_generator.py`). -/
structure CredentialHint where
  ctype : String
  value : String
  source : String := ""
  deriving DecidableEq, Repr

/-- The page context handed to the resolution pipeline. -/
structure PageContext where
  credentials : List CredentialHint := []
  instructions : List String := []
  deriving DecidableEq, Repr

/-- A resolved Python value: the strategies produce strings except the
checkbox strategy, which produces a `bool`. -/
inductive PyVal where
  | str (s : String)
  | bool (b : Bool)
  deriving DecidableEq, Repr

/-- Python `field.get('name') or field.get('id')`: the key under which a
field's value is stored (`None`/`""` are falsy). -/
def fieldKeyOf (f : Field) : Option String := pyOrStr f.name f.id

/-! ## Association lists with Python-dict semantics -/

/-- Lookup in an association list (first binding wins; our insert keeps
keys unique, matching a Python dict). -/
def lookupA {α : Type} (l : List (String × α)) (k : String) : Option α :=
  match l with
  | [] => none
  | (k', v) :: t => if k' = k then some v else lookupA t k

/-- Python `d[k] = v`: replace the binding in place if present, else append. -/
def insertA {α : Type} (l : List (String × α)) (k : String) (v : α) :
    List (String × α) :=
  match l with
  | [] => [(k, v)]
  | (k', v') :: t => if k' = k then (k', v) :: t else (k', v') :: insertA t k v

/-- Keys of an association list. -/
def keysA {α : Type} (l : List (String × α)) : List String := l.map Prod.fst

/-! ## Python runtime oddments shared by the strategies -/

/-- A raised Python exception (the pipeline only distinguishes raised
vs. not). -/
inductive PyErr where
  | valueError
  | indexError
  deriving DecidableEq, Repr

/-- Python `int(s)` on a string: strip whitespace, optional sign, decimal
digits (the subset of `int` the scanner's attribute values exercise). -/
def pyToInt (s : String) : Except PyErr Int :=
  let t := (pyStrip s).toList
  let signed : Int × List Char :=
    match t with
    | '+' :: rest => (1, rest)
    | '-' :: rest => (-1, rest)
    | l => (1, l)
  if signed.2 ≠ [] ∧ signed.2.all Char.isDigit then
    .ok (signed.1 * (signed.2.foldl (fun acc c => acc * 10 + (c.toNat - 48)) (0 : Nat) : Nat))
  else .error .valueError

/-- Python `random.choice(seq)`: raises `IndexError` on an empty sequence,
otherwise picks the element selected by the random stream (here an index
supplied by the environment, reduced mod the length). -/
def pyChoice {α : Type} (idx : Nat) : List α → Except PyErr α
  | [] => .error .indexError
  | a :: t => .ok ((a :: t).get ⟨idx % (a :: t).length, Nat.mod_lt _ (by simp)⟩)

/-- Python `f"{n:02d}"` for the small non-negative numbers the time
strategy produces (negative numbers print with their sign, as in Python). -/
def format02 (n : Int) : String :=
  if 0 ≤ n ∧ n < 10 then "0" ++ toString n else toString n

/-- The string `'` built without an apostrophe literal. -/
def apos : String := String.mk [Char.ofNat 39]

/-! ## DataGenerator (`src/formgenius/core/data_generator.py`)

The external effects of the class — `faker`, `random`, and the
`AIService` — are supplied by a `GenEnv` record: each field is the value
the corresponding external call returns during the run being modelled. -/

namespace DataGenerator

/-- Environment of one `DataGenerator` run: outcomes of the `faker`,
`random` and `AIService` calls. -/
structure GenEnv where
  /-- `AIService.is_available()` -/
  aiAvailable : Bool := false
  /-- result of `AIService.batch_generate_field_values` -/
  batchResults : List (String × String) := []
  /-- result of `AIService.generate_intelligent_option_selection` -/
  aiOptionSelect : Field → List OptionItem → Option OptionItem := fun _ _ => none
  /-- result of `AIService.generate_validation_test_data` -/
  validationData : Field → String → Option String := fun _ _ => none
  /-- `fake.email()` -/
  email : String := ""
  /-- `fake.first_name()` -/
  firstName : String := ""
  /-- `fake.last_name()` -/
  lastName : String := ""
  /-- `fake.name()` -/
  fullName : String := ""
  /-- `fake.phone_number()` -/
  phone : String := ""
  /-- `fake.url()` -/
  url : String := ""
  /-- the birth-date branch of `_generate_date` (`strftime('%Y-%m-%d')`) -/
  birthDate : String := ""
  /-- the recent-date branch of `_generate_date` -/
  recentDate : String := ""
  /-- `fake.street_address()` -/
  streetAddress : String := ""
  /-- `fake.city()` -/
  city : String := ""
  /-- `fake.state()` -/
  state : String := ""
  /-- `fake.zipcode()` -/
  zipcode : String := ""
  /-- `fake.text(max_nb_chars=n)` -/
  text : Int → String := fun _ => ""
  /-- the shuffled character-group password of `_generate_password`,
  as a function of the drawn length -/
  mkPassword : Int → String := fun _ => ""
  /-- `random.randint lo hi` (consulted only when `lo ≤ hi`) -/
  randint : Int → Int → Int := fun lo _ => lo
  /-- `random.choice([True, False])` -/
  coin : Bool := true
  /-- `random.choice([True, True, False])` -/
  coin2 : Bool := true
  /-- index drawn by `random.choice` over an option list -/
  pickIdx : Nat := 0

/-- `random.randint(lo, hi)`: `ValueError` when `lo > hi`. -/
def pyRandint (env : GenEnv) (lo hi : Int) : Except PyErr Int :=
  if lo ≤ hi then .ok (env.randint lo hi) else .error .valueError

/-- `DataGenerator._determine_data_type` (lines 206-254): direct raw-type
mapping first, then keyword scan over `label + " " + name` in source
order, defaulting to `text`. -/
def determine_data_type (field_type field_label field_name : String) : String :=
  if field_type = "email" then "email"
  else if field_type = "password" then "password"
  else if field_type = "tel" ∨ field_type = "phone" then "phone"
  else if field_type = "date" ∨ field_type = "datetime-local" then "date"
  else if field_type = "time" then "time"
  else if field_type = "number" ∨ field_type = "range" then "number"
  else if field_type = "url" then "url"
  else if field_type = "file" then "file"
  else if field_type = "select" ∨ field_type = "select-one" then "select"
  else if field_type = "checkbox" then "checkbox"
  else if field_type = "radio" then "radio"
  else if field_type = "textarea" then "textarea"
  else
    let combined := pyLower (field_label ++ " " ++ field_name)
    if anyKeywordIn ["email", "e-mail"] combined then "email"
    else if anyKeywordIn ["password", "pwd"] combined then "password"
    else if anyKeywordIn ["phone", "tel", "mobile"] combined then "phone"
    else if anyKeywordIn ["name", "first", "last", "full"] combined then "name"
    else if anyKeywordIn ["date", "birth", "dob"] combined then "date"
    else if anyKeywordIn ["age", "year", "number", "amount"] combined then "number"
    else if anyKeywordIn ["website", "url", "link"] combined then "url"
    else if anyKeywordIn ["message", "comment", "description"] combined then "textarea"
    else "text"

/-- `_generate_password` (lines 260-280): draw a length between
`max(minlength, 8)` and `min(maxlength, 20)` (raising `ValueError` when
that range is empty, exactly as `random.randint` does) and return the
shuffled composite password of that length. -/
def generate_password (env : GenEnv) (field : Field) : Except PyErr PyVal := do
  let minL := field.constraints.minlength.getD 8
  let maxL := field.constraints.maxlength.getD 20
  let length ← pyRandint env (max minL 8) (min maxL 20)
  return .str (env.mkPassword length)

/-- `_generate_name` (lines 282-291). -/
def generate_name (env : GenEnv) (field : Field) : PyVal :=
  let field_label := pyLower (field.label.getD "")
  if pyIn "first" field_label then .str env.firstName
  else if pyIn "last" field_label then .str env.lastName
  else .str env.fullName

/-- `_generate_date` (lines 297-310). -/
def generate_date (env : GenEnv) (field : Field) : PyVal :=
  let field_label := pyLower (field.label.getD "")
  if anyKeywordIn ["birth", "dob"] field_label then .str env.birthDate
  else .str env.recentDate

/-- The `try: ... except: default` parsing of one time bound in
`_generate_time` (lines 320-335). -/
def parseTimeBound (s : String) (dh dm : Int) : Int × Int :=
  if pyIn ":" s then
    match pySplit ':' s with
    | [h, m] =>
      match pyToInt h, pyToInt m with
      | .ok hh, .ok mm => (hh, mm)
      | _, _ => (dh, dm)
    | _ => (dh, dm)
  else (dh, dm)

/-- `_generate_time` (lines 312-348): bounds default to `09:00`/`17:00`,
hour drawn in `[min_hour, max_hour]` (an inverted range raises), minute
clamped at the boundary hours. -/
def generate_time (env : GenEnv) (field : Field) : Except PyErr PyVal := do
  let minT := field.constraints.min.getD "09:00"
  let maxT := field.constraints.max.getD "17:00"
  let mn := parseTimeBound minT 9 0
  let mx := parseTimeBound maxT 17 0
  let hour ← pyRandint env mn.1 mx.1
  let minute0 ← pyRandint env 0 59
  let minute1 := if hour = mx.1 then min minute0 mx.2 else minute0
  let minute2 := if hour = mn.1 then max minute1 mn.2 else minute1
  return .str (format02 hour ++ ":" ++ format02 minute2)

/-- `_generate_number` (lines 350-356): `int()` the min/max attribute
strings (defaults 1 and 100) and draw; both the parse and an inverted
range raise `ValueError`. -/
def generate_number (env : GenEnv) (field : Field) : Except PyErr PyVal := do
  let minV ← match field.constraints.min with
    | none => Except.ok (1 : Int)
    | some s => pyToInt s
  let maxV ← match field.constraints.max with
    | none => Except.ok (100 : Int)
    | some s => pyToInt s
  let v ← pyRandint env minV maxV
  return .str (toString v)

/-- `_generate_text` (lines 358-380). -/
def generate_text (env : GenEnv) (field : Field) : PyVal :=
  let maxLen := field.constraints.maxlength.getD 50
  let field_context :=
    pyLower (pyLower (field.label.getD "") ++ " " ++ pyLower (field.name.getD ""))
  if anyKeywordIn ["comment", "feedback"] field_context then
    .str "This is a test comment for automated form testing. Please ignore."
  else if anyKeywordIn ["description"] field_context then
    .str "Brief description for testing purposes."
  else if anyKeywordIn ["address"] field_context then
    .str (env.streetAddress ++ ", " ++ env.city ++ ", " ++ env.state ++ " " ++ env.zipcode)
  else if anyKeywordIn ["message"] field_context then
    .str "This is a test message for form automation testing."
  else if anyKeywordIn ["bio", "about"] field_context then
    .str "Professional with experience in software testing and automation."
  else .str (env.text maxLen)

/-- `_generate_textarea` (lines 525-544). -/
def generate_textarea (env : GenEnv) (field : Field) : PyVal :=
  let field_context :=
    pyLower (pyLower (field.label.getD "") ++ " " ++ pyLower (field.name.getD ""))
  if anyKeywordIn ["comment", "feedback"] field_context then
    .str "This is a test comment for automated form testing. Please ignore."
  else if anyKeywordIn ["description"] field_context then
    .str "Brief description for testing purposes."
  else if anyKeywordIn ["address"] field_context then
    .str (env.streetAddress ++ ", " ++ env.city ++ ", " ++ env.state ++ " " ++ env.zipcode)
  else if anyKeywordIn ["message"] field_context then
    .str "This is a test message for form automation testing."
  else if anyKeywordIn ["bio", "about"] field_context then
    .str "Professional with experience in software testing and automation."
  else .str "This is test data for the textarea field generated by FormGenius."

/-- The placeholder keywords of `_generate_select_value` (line 403). -/
def placeholder_keywords : List String :=
  ["select", "choose", "pick", "please", "---", "--"]

/-- `_smart_option_selection` (lines 432-480): keyword-preference scans over
the field context, then `random.choice` over the middle (or all) options. -/
def smart_option_selection (env : GenEnv) (options : List OptionItem)
    (field_label field_name : String) : Except PyErr OptionItem :=
  let field_context := pyLower (field_label ++ " " ++ field_name)
  let scan : List String → Option OptionItem := fun preferred =>
    options.find? (fun o => preferred.any (fun p => pyIn p (pyLower o.text)))
  let dflt : Except PyErr OptionItem :=
    if options.length > 2 then pyChoice env.pickIdx ((options.drop 1).dropLast)
    else pyChoice env.pickIdx options
  if anyKeywordIn ["country"] field_context then
    match scan ["us", "usa", "united states", "uk", "canada", "australia"] with
    | some o => .ok o
    | none => dflt
  else if anyKeywordIn ["state", "province"] field_context then
    match scan ["california", "new york", "texas", "florida", "ontario", "quebec"] with
    | some o => .ok o
    | none => dflt
  else if anyKeywordIn ["title", "prefix"] field_context then
    match scan ["mr", "ms", "mrs", "dr"] with
    | some o => .ok o
    | none => dflt
  else if anyKeywordIn ["gender", "sex"] field_context then
    match scan ["male", "female", "m", "f"] with
    | some o => .ok o
    | none => dflt
  else if anyKeywordIn ["age", "year"] field_context then
    match scan ["25-34", "30-39", "35-44", "adult"] with
    | some o => .ok o
    | none => dflt
  else dflt

/-- `_generate_select_value` (lines 391-430): empty options give `""`;
placeholder options are filtered out; AI option selection is consulted
when available; otherwise rule-based smart selection. -/
def generate_select_value (env : GenEnv) (field : Field) : Except PyErr PyVal :=
  let options := field.options
  let field_label := pyLower (field.label.getD "")
  let field_name := pyLower (field.name.getD "")
  if options.isEmpty then .ok (.str "")
  else
    let valid := options.filter (fun o =>
      !(pyStrip o.value == "") &&
      !(placeholder_keywords.any (fun k => pyIn k (pyLower (pyStrip o.text)))))
    if valid.isEmpty then .ok (.str "")
    else
      match (if env.aiAvailable then env.aiOptionSelect field valid else none) with
      | some sel => .ok (.str sel.value)
      | none => do
        let o ← smart_option_selection env valid field_label field_name
        return .str o.value

/-- `_generate_radio_value` (lines 502-523): like select but without the
placeholder filtering. -/
def generate_radio_value (env : GenEnv) (field : Field) : Except PyErr PyVal :=
  let options := field.options
  let field_label := pyLower (field.label.getD "")
  let field_name := pyLower (field.name.getD "")
  if options.isEmpty then .ok (.str "")
  else
    match (if env.aiAvailable then env.aiOptionSelect field options else none) with
    | some sel => .ok (.str sel.value)
    | none => do
      let o ← smart_option_selection env options field_label field_name
      return .str o.value

/-- `_generate_checkbox_value` (lines 482-500). -/
def generate_checkbox_value (env : GenEnv) (field : Field) : PyVal :=
  let field_context :=
    pyLower (pyLower (field.label.getD "") ++ " " ++ pyLower (field.name.getD ""))
  if anyKeywordIn ["agree", "accept", "terms", "privacy", "policy"] field_context then
    .bool true
  else if anyKeywordIn ["newsletter", "email", "marketing", "promotional"] field_context then
    .bool env.coin
  else if anyKeywordIn ["required", "mandatory"] field_context then
    .bool true
  else .bool env.coin2

/-- Dispatch through `self.field_strategies.get(data_type, ..['text'])`
(lines 31-46 and 196-197). -/
def run_strategy (env : GenEnv) (data_type : String) (field : Field) :
    Except PyErr PyVal :=
  if data_type = "email" then .ok (.str env.email)
  else if data_type = "password" then generate_password env field
  else if data_type = "name" then .ok (generate_name env field)
  else if data_type = "phone" then .ok (.str env.phone)
  else if data_type = "date" then .ok (generate_date env field)
  else if data_type = "time" then generate_time env field
  else if data_type = "number" then generate_number env field
  else if data_type = "select" then generate_select_value env field
  else if data_type = "checkbox" then .ok (generate_checkbox_value env field)
  else if data_type = "radio" then generate_radio_value env field
  else if data_type = "textarea" then .ok (generate_textarea env field)
  else if data_type = "url" then .ok (.str env.url)
  else if data_type = "file" then .ok (.str "test_file.txt")
  else .ok (generate_text env field)

/-- The credential-matching loop of `_generate_field_value`
(lines 180-191): first hint whose `type` matches the field's
`name + " " + label` keyword test wins. -/
def findCred (fieldKey : String) : List CredentialHint → Option String
  | [] => none
  | c :: rest =>
    let cred_type := pyLower c.ctype
    if (pyIn "username" cred_type || pyIn "user" cred_type) &&
        anyKeywordIn ["username", "user", "login", "email"] fieldKey then
      some c.value
    else if pyIn "password" cred_type && pyIn "password" fieldKey then
      some c.value
    else findCred fieldKey rest

/-- The `if page_context and page_context.get('credentials')` guard plus
the matching loop. -/
def credential_override (pc : Option PageContext) (field_name field_label : String) :
    Option String :=
  match pc with
  | none => none
  | some ctx =>
    if ctx.credentials.isEmpty then none
    else findCred (pyLower (field_name ++ " " ++ field_label)) ctx.credentials

/-- `DataGenerator._generate_field_value` (lines 174-204): credential
override first, then the strategy selected by `_determine_data_type`,
with the strategy call wrapped in `try/except` returning `None`. -/
def generate_field_value (env : GenEnv) (pc : Option PageContext)
    (field : Field) : Option PyVal :=
  let field_type := pyLower (field.ftype.getD "text")
  let field_label := pyLower (field.label.getD "")
  let field_name := pyLower (field.name.getD "")
  match credential_override pc field_name field_label with
  | some v => some (.str v)
  | none =>
    let data_type := determine_data_type field_type field_label field_name
    match run_strategy env data_type field with
    | .ok v => some v
    | .error _ => none

/-- One `AIService` method invocation made by the pipeline.  `singleGen`
would record a call to `AIService.generate_field_value` (the single-field
generative path). -/
inductive AICall where
  | analyze
  | batch
  | singleGen (key : String)
  deriving DecidableEq, Repr

/-- Truth of `AICall.singleGen`. -/
def isSingleGen : AICall → Bool
  | .singleGen _ => true
  | _ => false

/-- The per-field loop bodies of `generate_form_data` (lines 80-117):
skip keyless fields, use the batch value when present, otherwise fall back
to `_generate_field_value`, dropping `None` results.  With `br = []` this
is exactly the rule-based loops of the non-batch branches. -/
def resolveFields (env : GenEnv) (pc : Option PageContext)
    (br : List (String × String)) :
    List Field → List (String × PyVal) → List (String × PyVal)
  | [], acc => acc
  | f :: fs, acc =>
    match fieldKeyOf f with
    | none => resolveFields env pc br fs acc
    | some key =>
      match lookupA br key with
      | some v => resolveFields env pc br fs (insertA acc key (.str v))
      | none =>
        match generate_field_value env pc f with
        | some v => resolveFields env pc br fs (insertA acc key v)
        | none => resolveFields env pc br fs acc

/-- `DataGenerator.generate_form_data` (lines 48-119), returning the
resolved map together with the trace of `AIService` method calls the run
makes (`analyze_form_context`, then `batch_generate_field_values`, both
only when the service is available;  no call site for
`AIService.generate_field_value` exists in this function). -/
def generate_form_data (env : GenEnv) (form : Form) (pc : Option PageContext) :
    List (String × PyVal) × List AICall :=
  let br := if env.aiAvailable then env.batchResults else []
  let trace := if env.aiAvailable then [AICall.analyze, AICall.batch] else []
  (resolveFields env pc br form.fields [], trace)

/-- The SQL-injection payload of `_generate_invalid_field_value`
(line 607). -/
def sqlPayload : String := apos ++ "; DROP TABLE users; --"

/-- The XSS payload of `_generate_invalid_field_value` (line 610). -/
def xssPayload : String := "<script>alert(" ++ apos ++ "XSS" ++ apos ++ ")</script>"

/-- `'x' * n` (empty for non-positive `n`, as in Python). -/
def xRepeat (n : Int) : String := String.mk (List.replicate n.toNat 'x')

/-- `DataGenerator._generate_invalid_field_value` (lines 584-628).
Uncaught exceptions of the nested strategies propagate (there is no
`try` on this path), hence the `Except`. -/
def generate_invalid_field_value (env : GenEnv) (field : Field)
    (scenario : String) (pc : Option PageContext) :
    Except PyErr (Option PyVal) :=
  let field_type := pyLower (field.ftype.getD "text")
  if scenario = "empty_required_fields" then
    if field.required then .ok (some (.str ""))
    else .ok (generate_field_value env pc field)
  else if scenario = "invalid_email" then
    if field_type = "email" ∨ pyIn "email" (pyLower (field.label.getD "")) then
      .ok (some (.str "invalid-email-format"))
    else .ok (generate_field_value env pc field)
  else if scenario = "invalid_phone" then
    if field_type = "tel" ∨ field_type = "phone" ∨
        pyIn "phone" (pyLower (field.label.getD "")) then
      .ok (some (.str "not-a-phone-number"))
    else .ok (generate_field_value env pc field)
  else if scenario = "sql_injection_attempt" then .ok (some (.str sqlPayload))
  else if scenario = "xss_attempt" then .ok (some (.str xssPayload))
  else if scenario = "boundary_values" then
    match field.constraints.maxlength with
    | some maxLen => .ok (some (.str (xRepeat (maxLen + 10))))
    | none =>
      if field_type = "number" then
        match field.constraints.max with
        | some mx => do
          let v ← pyToInt mx
          return some (.str (toString (v + 1)))
        | none => .ok (some (.str "999999999"))
      else .ok (generate_field_value env pc field)
  else .ok (generate_field_value env pc field)

/-- The per-field loop of `generate_invalid_data` (lines 153-170): AI
validation data first when available (kept even when it is the empty
string, which is not `None`), else the rule-based invalid value. -/
def invalidFields (env : GenEnv) (pc : Option PageContext) (scenario : String) :
    List Field → List (String × PyVal) → Except PyErr (List (String × PyVal))
  | [], acc => .ok acc
  | f :: fs, acc =>
    match fieldKeyOf f with
    | none => invalidFields env pc scenario fs acc
    | some key =>
      match (if env.aiAvailable then env.validationData f scenario else none) with
      | some s => invalidFields env pc scenario fs (insertA acc key (.str s))
      | none => do
        match (← generate_invalid_field_value env f scenario pc) with
        | some v => invalidFields env pc scenario fs (insertA acc key v)
        | none => invalidFields env pc scenario fs acc

/-- `DataGenerator.generate_invalid_data` (lines 137-172). -/
def generate_invalid_data (env : GenEnv) (form : Form) (scenario : String)
    (pc : Option PageContext) : Except PyErr (List (String × PyVal)) :=
  invalidFields env pc scenario form.fields []

end DataGenerator

/-! ## AIService batch JSON extraction
(`src/formgenius/core/ai_service.py`, lines 318-558).

`json.loads` is the external CPython parser; it enters the embedding as a
`parse` oracle restricted to the flat string-valued objects the batch
prompt demands.  The embedding additionally returns the list of strings
handed to `json.loads`, so that which extraction strategies actually ran
is provable. -/

namespace AIService

/-- `re.search(r'\x7b.*\x7d', s, re.DOTALL)`: greedy match from the first
`{` through the last `}` of the whole string (`None` when no such block
exists). -/
def braceBlock (s : String) : Option String :=
  let cs := s.toList
  match cs.findIdx? (· = '{') with
  | none => none
  | some i =>
    match cs.reverse.findIdx? (· = '}') with
    | none => none
    | some rj =>
      let j := cs.length - 1 - rj
      if i < j then some (((cs.drop i).take (j - i + 1)).asString) else none

/-- Approaches 1-4 of `batch_generate_field_values` (lines 471-523).
Approach 1 parses the whole response; approach 2 parses the greedy brace
block.  When both fail, control reaches approach 3, whose pattern
`(\x7b(?:[^\x7b\x7d]|(?1))*\x7d)` uses the recursive extension `(?1)` that
CPython's `re` module does not support: `re.search` raises `re.error`
at compile time, the enclosing `except Exception` (line 556) returns `{}`,
and approach 4 (the quote-rewriting cleanup) is never reached.  The first
component is `none` exactly when the call ends in that handler; the second
lists the arguments `json.loads` received. -/
def extract_json (parse : String → Option (List (String × String)))
    (response : String) :
    Option (List (String × String)) × List String :=
  match parse response with
  | some r => (some r, [response])
  | none =>
    match braceBlock response with
    | some block =>
      match parse block with
      | some r => (some r, [response, block])
      | none => (none, [response, block])
    | none => (none, [response])

/-- `field_name or field_id or f"field_{i}"` (line 385), with the `.get`
defaults `''`. -/
def field_id_for_mapping (i : Nat) (f : Field) : String :=
  match pyOrStr (some (f.name.getD "")) (some (f.id.getD "")) with
  | some k => k
  | none => "field_" ++ toString i

/-- The response-filtering loop of `batch_generate_field_values`
(lines 526-540): take the value stored under the mapping id, else under
the raw `name`, else under the raw `id`. -/
def collect_field_values (result : List (String × String)) :
    List (Nat × Field) → List (String × String) → List (String × String)
  | [], acc => acc
  | (i, f) :: rest, acc =>
    let fid := field_id_for_mapping i f
    match lookupA result fid with
    | some v => collect_field_values result rest (insertA acc fid v)
    | none =>
      let fname := f.name.getD ""
      let fidAlt := f.id.getD ""
      match (if fname = "" then none else lookupA result fname) with
      | some v => collect_field_values result rest (insertA acc fid v)
      | none =>
        match (if fidAlt = "" then none else lookupA result fidAlt) with
        | some v => collect_field_values result rest (insertA acc fid v)
        | none => collect_field_values result rest acc

/-- `AIService.batch_generate_field_values` (lines 318-558): empty result
when unavailable, the field list is empty, the model call returned `None`,
or JSON extraction failed; otherwise the filtered field values.  Also
returns the `json.loads` argument trace of `extract_json`. -/
def batch_generate_field_values
    (parse : String → Option (List (String × String)))
    (available : Bool) (fields : List Field) (response : Option String) :
    List (String × String) × List String :=
  if ¬ available ∨ fields.isEmpty then ([], [])
  else
    match response with
    | none => ([], [])
    | some resp =>
      match extract_json parse resp with
      | (none, tr) => ([], tr)
      | (some result, tr) => (collect_field_values result fields.enum [], tr)

end AIService

/-! ## FormGeniusAgent._fill_form_fields
(`src/formgenius/core/agent.py`, lines 433-466).

The browser call `playwright_client.fill_field` is the external UI
surface: its behaviour enters as an outcome oracle (returned `True`,
returned `False`, or raised), and the page is modelled as a map from
field key to the last successfully applied value. -/

namespace FormGeniusAgent

/-- Outcome of one external `fill_field` call. -/
inductive FillOutcome where
  | ok
  | failed
  | raised
  deriving DecidableEq, Repr

/-- The external UI surface for one run. -/
structure FillEnv where
  outcome : Field → PyVal → FillOutcome

/-- Loop state of `_fill_form_fields`: `filled_fields` length, `errors`,
the keys attempted so far (instrumentation), and the page contents. -/
structure FillState where
  filled : Nat := 0
  errors : List String := []
  attempted : List String := []
  page : List (String × PyVal) := []
  deriving DecidableEq, Repr

/-- Result dict of `_fill_form_fields`. -/
structure FillResult where
  success : Bool
  filled_fields : Nat
  total_fields : Nat
  errors : List String
  attempted : List String
  deriving DecidableEq, Repr

/-- The `for field in form.get('fields', [])` loop: fields without a value
in `form_data` are skipped silently; a `False` return or a raise appends
to `errors` and the loop continues with the next field. -/
def fillLoop (env : FillEnv) (data : List (String × PyVal)) :
    List Field → FillState → FillState
  | [], st => st
  | f :: fs, st =>
    match fieldKeyOf f with
    | none => fillLoop env data fs st
    | some key =>
      match lookupA data key with
      | none => fillLoop env data fs st
      | some v =>
        match env.outcome f v with
        | .ok =>
          fillLoop env data fs
            { st with
              filled := st.filled + 1
              attempted := st.attempted ++ [key]
              page := insertA st.page key v }
        | .failed =>
          fillLoop env data fs
            { st with
              errors := st.errors ++ ["Failed to fill field: " ++ key]
              attempted := st.attempted ++ [key] }
        | .raised =>
          fillLoop env data fs
            { st with
              errors := st.errors ++ ["Error filling field " ++ key]
              attempted := st.attempted ++ [key] }

/-- `FormGeniusAgent._fill_form_fields`: runs the loop over every field
and reports `success` iff `errors` is empty, together with the final page
state. -/
def fill_form_fields (env : FillEnv) (form : Form)
    (data : List (String × PyVal)) (page0 : List (String × PyVal)) :
    FillResult × List (String × PyVal) :=
  let st := fillLoop env data form.fields { page := page0 }
  (⟨st.errors.isEmpty, st.filled, form.fields.length, st.errors, st.attempted⟩,
    st.page)

end FormGeniusAgent

/-! ## MicrosoftAuthenticator 2FA poll loop
(`src/formgenius/auth/microsoft_auth.py`, `_handle_2fa` lines 166-212).

The live page is an oracle indexed by the poll iteration: the URL read at
that iteration, whether any second-factor selector is still visible, and
whether a success DOM marker is present. -/

namespace MicrosoftAuthenticator

/-- The page as seen by poll iteration `k`. -/
structure AuthPage where
  url : Nat → String
  still2fa : Nat → Bool
  successElems : Nat → Bool

/-- `success_indicators` (lines 161-166). -/
def success_indicators : List String :=
  ["**/make.powerapps.com/**",
   "**/portal.office.com/**",
   "**/admin.microsoft.com/**",
   "**/outlook.office.com/**"]

/-- The per-iteration URL test (lines 173-177):
`any(part in current_url for part in indicator.split("*"))` over each
indicator. -/
def urlIndicatesSuccess (current_url : String) : Bool :=
  success_indicators.any
    (fun ind => (pySplit '*' ind).any (fun part => pyIn part current_url))

/-- Outcome of the bounded wait: final `authenticated` flag, number of
loop iterations entered, number of 5-second sleeps executed. -/
structure TwoFaOutcome where
  authenticated : Bool
  iterations : Nat
  sleeps : Nat
  deriving DecidableEq, Repr

/-- The `for _ in range(60)` body (lines 170-202): URL check, then
2FA-disappearance plus DOM-marker check, then `asyncio.sleep(5)` and the
next iteration; breaking skips the sleep. -/
def handle_2fa_wait (page : AuthPage) : Nat → Nat → TwoFaOutcome
  | 0, _ => ⟨false, 0, 0⟩
  | fuel + 1, k =>
    if urlIndicatesSuccess (page.url k) then ⟨true, 1, 0⟩
    else if !page.still2fa k && page.successElems k then ⟨true, 1, 0⟩
    else
      let r := handle_2fa_wait page fuel (k + 1)
      ⟨r.authenticated, r.iterations + 1, r.sleeps + 1⟩

/-- The whole bounded wait of `_handle_2fa`: 60 iterations of the body. -/
def handle_2fa_loop (page : AuthPage) : TwoFaOutcome :=
  handle_2fa_wait page 60 0

end MicrosoftAuthenticator

/-! ## FillExecutor: select option matching and date/time value
normalization (`playwright_mcp.py`, `_fill_select_field` lines 196-245,
`_fill_date_field` lines 347-363, `_fill_time_field` lines 365-379). -/

namespace PlaywrightMCPClient

/-- `_fill_select_field`'s four matching strategies, returning the winning
strategy number and the option handed to `page.select_option` (or `none`
when every strategy misses and the method returns `False`):
(1) exact `value` equality against `str(value)`;
(2) exact lower/stripped text equality;
(3) substring containment either way between desired value and option
    text; and
(4) the first option whose `value` is truthy and not in
    `['', 'select', 'choose']`. -/
def fill_select_field (options : List OptionItem) (value : String) :
    Option (Nat × OptionItem) :=
  let value_str := pyStrip (pyLower value)
  match options.find? (fun o => o.value == value) with
  | some o => some (1, o)
  | none =>
    match options.find? (fun o => pyStrip (pyLower o.text) == value_str) with
    | some o => some (2, o)
    | none =>
      match options.find? (fun o =>
          pyIn value_str (pyStrip (pyLower o.text)) ||
          pyIn (pyStrip (pyLower o.text)) value_str) with
      | some o => some (3, o)
      | none =>
        match options.find? (fun o =>
            !(o.value == "") && !(["", "select", "choose"].contains o.value)) with
        | some o => some (4, o)
        | none => none

/-- The value written by `_fill_date_field`: `str(value).split('/')`, and
when there are exactly three parts with a length-4 third part, rebuild as
`YYYY-MM-DD` with `zfill(2)` on month and day; otherwise the value is
passed through unchanged. -/
def fill_date_field (value : String) : String :=
  match pySplit '/' value with
  | [m, d, y] =>
    if pyLen y = 4 then y ++ "-" ++ pyZfill 2 m ++ "-" ++ pyZfill 2 d
    else value
  | _ => value

/-- The value written by `_fill_time_field`: when the string has no `':'`
and `len >= 3`, insert a colon as `f"{s[:2]}:{s[2:4]}"`; otherwise pass
through. -/
def fill_time_field (value : String) : String :=
  if ¬ pyIn ":" value ∧ pyLen value ≥ 3 then
    pyTake 2 value ++ ":" ++ pyTake 2 (pyDrop 2 value)
  else value

end PlaywrightMCPClient

/-! ## Concrete instances used by individual claim theorems -/

/-- A batch run that returns a value for the credential-matching field. -/
def c1Env : DataGenerator.GenEnv :=
  { aiAvailable := true, batchResults := [("username", "batchval")] }

/-- A username field as the scanner would deliver it. -/
def c1Field : Field :=
  { name := some "username", ftype := some "text", label := some "Username" }

/-- A page context carrying one discovered username credential. -/
def c1Ctx : PageContext :=
  { credentials := [{ ctype := "username", value := "admin" }] }

/-- An optional number field with an inverted `min`/`max` range: its
rule-based strategy raises `ValueError` inside `random.randint`. -/
def c2Field : Field :=
  { name := some "n", ftype := some "number",
    constraints := { min := some "5", max := some "2" } }

/-- A plain text field whose rule-based strategy succeeds. -/
def c2FieldB : Field := { name := some "t" }

/-- The concrete single-quoted model reply used to exercise the JSON
extraction pipeline: `{'name': 'Bob'}`. -/
def c4Response : String :=
  "\x7b" ++ apos ++ "name" ++ apos ++ ": " ++ apos ++ "Bob" ++ apos ++ "\x7d"

/-- One field for the batch-extraction witness. -/
def c4Field : Field := { name := some "name" }

/-- A text field named `nm` for the partial-failure scenario. -/
def c5Field (nm : String) : Field := { name := some nm, ftype := some "text" }

/-- A UI surface on which exactly the fields `f2` and `f4` fail to apply. -/
def c5Env : FormGeniusAgent.FillEnv :=
  { outcome := fun f _ =>
      if f.name = some "f2" ∨ f.name = some "f4" then .failed else .ok }

/-- Five text fields. -/
def c5Form : Form :=
  ⟨[c5Field "f1", c5Field "f2", c5Field "f3", c5Field "f4", c5Field "f5"]⟩

/-- Values for all five fields. -/
def c5Data : List (String × PyVal) :=
  [("f1", .str "v1"), ("f2", .str "v2"), ("f3", .str "v3"),
   ("f4", .str "v4"), ("f5", .str "v5")]

/-- A batch run that returns a value only for field `a`. -/
def c6Env : DataGenerator.GenEnv :=
  { aiAvailable := true, batchResults := [("a", "va")] }

/-- The field the batch response covers. -/
def c6FieldA : Field := { name := some "a", ftype := some "text" }

/-- The field the batch response omits. -/
def c6FieldX : Field := { name := some "x", ftype := some "text" }

/-- A form with one covered and one omitted field. -/
def c6Form : Form := ⟨[c6FieldA, c6FieldX]⟩

/-- The option list of the spec's select-matching example. -/
def c7Options : List OptionItem :=
  [⟨"", "Select"⟩, ⟨"us", "United States"⟩, ⟨"ca", "Canada"⟩]

/-- A checkbox field (by name only) for the invalid-data scenario. -/
def c10Field : Field := { name := some "agree", ftype := some "checkbox" }

/-- A page stuck on the 2FA prompt: the URL never matches a success
pattern literally, the second-factor selector stays visible, and no
success marker ever appears. -/
def c3Page : MicrosoftAuthenticator.AuthPage :=
  { url := fun _ => "https://login.microsoftonline.com/common/SAS/ProcessAuth",
    still2fa := fun _ => true,
    successElems := fun _ => false }

/-! ## Helper lemmas -/

/-- The empty string is a substring of everything, exactly as in Python
where `"" in s` is `True`. -/
theorem pyIn_nil (hay : String) : pyIn "" hay = true := by
  unfold pyIn
  show isSubLst [] hay.toList = true
  induction hay.toList with
  | nil => rfl
  | cons c t ih => simp [isSubLst, List.isPrefixOf]

theorem splitChar_ne_nil (sep : Char) (l : List Char) : splitChar sep l ≠ [] := by
  cases l with
  | nil => simp [splitChar]
  | cons c cs =>
    simp only [splitChar]
    cases splitChar sep cs with
    | nil => simp
    | cons g gs =>
      by_cases h : c = sep <;> simp [h]

/-- Splitting a list that starts with the separator. -/
theorem splitChar_sep_cons (sep : Char) (l : List Char) :
    splitChar sep (sep :: l) = [] :: splitChar sep l := by
  simp only [splitChar]
  cases h : splitChar sep l with
  | nil => exact absurd h (splitChar_ne_nil sep l)
  | cons g gs => simp

/-- Splitting a list that starts with a non-separator character. -/
theorem splitChar_cons_ne (sep c : Char) (l : List Char) (hc : c ≠ sep) :
    splitChar sep (c :: l) =
      match splitChar sep l with
      | [] => [[]]
      | g :: gs => (c :: g) :: gs := by
  simp only [splitChar]
  cases splitChar sep l with
  | nil => rfl
  | cons g gs => simp [hc]

/-- Splitting a concatenation whose first block contains no separator. -/
theorem splitChar_append_no_sep (sep : Char) (a b : List Char)
    (ha : sep ∉ a) :
    splitChar sep (a ++ sep :: b) = a :: splitChar sep b := by
  induction a with
  | nil => simpa using splitChar_sep_cons sep b
  | cons c cs ih =>
    have hc : c ≠ sep := fun h => ha (h ▸ List.mem_cons_self c cs)
    have ha' : sep ∉ cs := fun h => ha (List.mem_cons_of_mem c h)
    rw [List.cons_append, splitChar_cons_ne sep c _ hc, ih ha']

/-- A separator-free list splits into itself alone. -/
theorem splitChar_no_sep (sep : Char) (a : List Char) (ha : sep ∉ a) :
    splitChar sep a = [a] := by
  induction a with
  | nil => rfl
  | cons c cs ih =>
    have hc : c ≠ sep := fun h => ha (h ▸ List.mem_cons_self c cs)
    have ha' : sep ∉ cs := fun h => ha (List.mem_cons_of_mem c h)
    rw [splitChar_cons_ne sep c cs hc, ih ha']

theorem keysA_insertA {α : Type} (l : List (String × α)) (k : String) (v : α) :
    keysA (insertA l k v) = if k ∈ keysA l then keysA l else keysA l ++ [k] := by
  induction l with
  | nil => simp [keysA, insertA]
  | cons p t ih =>
    obtain ⟨k', v'⟩ := p
    by_cases h : k' = k
    · subst h
      simp [insertA, keysA]
    · simp only [insertA, if_neg h, keysA, List.map_cons, List.mem_cons]
      have : ¬ k = k' := fun hk => h hk.symm
      simp only [keysA] at ih
      rw [ih]
      by_cases hm : k ∈ t.map Prod.fst <;> simp [hm, this]

theorem nodup_keysA_insertA {α : Type} (l : List (String × α)) (k : String)
    (v : α) (h : (keysA l).Nodup) : (keysA (insertA l k v)).Nodup := by
  rw [keysA_insertA]
  by_cases hm : k ∈ keysA l
  · simpa [hm]
  · simpa [hm, List.nodup_append] using h

theorem lookupA_insertA_self {α : Type} (l : List (String × α)) (k : String)
    (v : α) : lookupA (insertA l k v) k = some v := by
  induction l with
  | nil => simp [insertA, lookupA]
  | cons p t ih =>
    obtain ⟨k', v'⟩ := p
    by_cases h : k' = k
    · subst h
      simp [insertA, lookupA]
    · simp [insertA, lookupA, h, ih]

theorem lookupA_insertA_ne {α : Type} (l : List (String × α)) (k k' : String)
    (v : α) (h : k ≠ k') : lookupA (insertA l k v) k' = lookupA l k' := by
  induction l with
  | nil => simp [insertA, lookupA, h]
  | cons p t ih =>
    obtain ⟨q, w⟩ := p
    by_cases hq : q = k
    · subst hq
      simp [insertA, lookupA, h]
    · simp [insertA, lookupA, hq, ih]

theorem lookupA_none_of_not_mem {α : Type} (l : List (String × α)) (k : String)
    (h : k ∉ keysA l) : lookupA l k = none := by
  induction l with
  | nil => rfl
  | cons p t ih =>
    obtain ⟨q, w⟩ := p
    simp only [keysA, List.map_cons, List.mem_cons, not_or] at h
    have hqk : ¬ q = k := fun hq => h.1 hq.symm
    simp [lookupA, hqk, ih (by simpa [keysA] using h.2)]

/-- Membership in the keys after an insert. -/
theorem mem_keysA_insertA {α : Type} (l : List (String × α)) (k k' : String)
    (v : α) : k' ∈ keysA (insertA l k v) ↔ k' ∈ keysA l ∨ k' = k := by
  rw [keysA_insertA]
  by_cases hm : k ∈ keysA l
  · simp only [hm, if_pos]
    constructor
    · exact Or.inl
    · rintro (h | rfl)
      · exact h
      · exact hm
  · simp [hm]

/-- A successful lookup returns the value of some entry of the list. -/
theorem lookupA_mem {α : Type} (l : List (String × α)) (k : String) (v : α)
    (h : lookupA l k = some v) : ∃ k', (k', v) ∈ l := by
  induction l with
  | nil => simp [lookupA] at h
  | cons p t ih =>
    obtain ⟨q, w⟩ := p
    by_cases hq : q = k
    · subst hq
      rw [show lookupA ((q, w) :: t) q = some w from by simp [lookupA]] at h
      simp only [Option.some.injEq] at h
      refine ⟨q, ?_⟩
      rw [← h]
      exact List.mem_cons_self _ _
    · simp only [lookupA, if_neg hq] at h
      obtain ⟨k', hk'⟩ := ih h
      exact ⟨k', List.mem_cons_of_mem _ hk'⟩

/-- When every entry of a list carries the same value, lookup of any
present key returns it. -/
theorem lookupA_const {α : Type} (l : List (String × α)) (k : String) (v : α)
    (hv : ∀ e ∈ l, e.2 = v) (hk : k ∈ keysA l) : lookupA l k = some v := by
  induction l with
  | nil => simp [keysA] at hk
  | cons p t ih =>
    obtain ⟨q, w⟩ := p
    by_cases hq : q = k
    · subst hq
      have : w = v := hv (q, w) (List.mem_cons_self _ _)
      simp [lookupA, this]
    · have hk' : k ∈ keysA t := by
        simp only [keysA, List.map_cons, List.mem_cons] at hk
        rcases hk with h | h
        · exact absurd h.symm hq
        · exact h
      simp [lookupA, hq, ih (fun e he => hv e (List.mem_cons_of_mem _ he)) hk']

/-- Entries after an insert come from the old list or are the new pair. -/
theorem mem_insertA {α : Type} (l : List (String × α)) (k : String) (v : α)
    (e : String × α) (h : e ∈ insertA l k v) : e ∈ l ∨ e = (k, v) := by
  induction l with
  | nil => simpa [insertA] using h
  | cons p t ih =>
    obtain ⟨q, w⟩ := p
    by_cases hq : q = k
    · subst hq
      rw [show insertA ((q, w) :: t) q v = (q, v) :: t from by simp [insertA]] at h
      rcases List.mem_cons.mp h with h1 | h1
      · exact Or.inr h1
      · exact Or.inl (List.mem_cons_of_mem _ h1)
    · simp only [insertA, if_neg hq, List.mem_cons] at h
      rcases h with h1 | h1
      · exact Or.inl (by rw [h1]; exact List.mem_cons_self _ _)
      · rcases ih h1 with h' | h'
        · exact Or.inl (List.mem_cons_of_mem _ h')
        · exact Or.inr h'

/-- The 2FA success-URL test accepts every URL: each indicator contains
`*`, so `indicator.split("*")` contains the empty string, and Python's
`"" in current_url` is always `True`. -/
theorem urlIndicatesSuccess_true (u : String) :
    MicrosoftAuthenticator.urlIndicatesSuccess u = true := by
  have hsplit : pySplit '*' "**/make.powerapps.com/**" =
      ["", "", "/make.powerapps.com/", "", ""] := by decide
  unfold MicrosoftAuthenticator.urlIndicatesSuccess
    MicrosoftAuthenticator.success_indicators
  rw [List.any_cons, hsplit]
  simp [pyIn_nil u]

/-- Splitting `m/d/y` at `/` when the components are slash-free. -/
theorem pySplit_slash_three (m d y : String)
    (hm : '/' ∉ m.toList) (hd : '/' ∉ d.toList) (hy : '/' ∉ y.toList) :
    pySplit '/' (m ++ "/" ++ d ++ "/" ++ y) = [m, d, y] := by
  have hlist : (m ++ "/" ++ d ++ "/" ++ y).toList =
      m.toList ++ '/' :: (d.toList ++ '/' :: y.toList) := by
    show (m ++ "/" ++ d ++ "/" ++ y).data =
      m.data ++ '/' :: (d.data ++ '/' :: y.data)
    rw [String.data_append, String.data_append, String.data_append,
      show ("/" : String).data = ['/'] from rfl]
    simp
  unfold pySplit
  rw [hlist, splitChar_append_no_sep '/' _ _ hm,
    splitChar_append_no_sep '/' _ _ hd, splitChar_no_sep '/' _ hy]
  rfl

/-- A key absent from the remaining fields is untouched by the loop. -/
theorem resolveFields_lookup_not_mem (env : DataGenerator.GenEnv)
    (pc : Option PageContext) (br : List (String × String)) (key : String)
    (fields : List Field) :
    ∀ (acc : List (String × PyVal)), key ∉ fields.filterMap fieldKeyOf →
      lookupA (DataGenerator.resolveFields env pc br fields acc) key =
        lookupA acc key := by
  induction fields with
  | nil => intro acc _; rfl
  | cons f fs ih =>
    intro acc h
    rw [List.filterMap_cons] at h
    cases hk : fieldKeyOf f with
    | none =>
      rw [hk] at h
      simp only [DataGenerator.resolveFields, hk]
      exact ih acc h
    | some k =>
      rw [hk] at h
      simp only [List.mem_cons, not_or] at h
      have hkk : k ≠ key := fun e => h.1 e.symm
      simp only [DataGenerator.resolveFields, hk]
      cases hbr : lookupA br k with
      | some v =>
        simp only [hbr]
        rw [ih _ h.2, lookupA_insertA_ne _ _ _ _ hkk]
      | none =>
        simp only [hbr]
        cases hg : DataGenerator.generate_field_value env pc f with
        | some v =>
          simp only [hg]
          rw [ih _ h.2, lookupA_insertA_ne _ _ _ _ hkk]
        | none =>
          simp only [hg]
          exact ih _ h.2

/-- When a unique field carries `key` and the batch result misses it, the
final lookup is exactly that field's rule-based resolution. -/
theorem resolveFields_lookup_miss (env : DataGenerator.GenEnv)
    (pc : Option PageContext) (br : List (String × String)) (f : Field)
    (key : String) (hfk : fieldKeyOf f = some key)
    (hbr : lookupA br key = none) (fields : List Field) :
    ∀ (acc : List (String × PyVal)), f ∈ fields →
      (fields.filterMap fieldKeyOf).count key = 1 →
      lookupA acc key = none →
      lookupA (DataGenerator.resolveFields env pc br fields acc) key =
        DataGenerator.generate_field_value env pc f := by
  induction fields with
  | nil => intro acc hmem; exact absurd hmem (List.not_mem_nil f)
  | cons g gs ih =>
    intro acc hmem hcount hacc
    rw [List.filterMap_cons] at hcount
    cases hk : fieldKeyOf g with
    | none =>
      rw [hk] at hcount
      have hfg : f ∈ gs := by
        rcases List.mem_cons.mp hmem with rfl | hm
        · rw [hfk] at hk; exact absurd hk (by simp)
        · exact hm
      simp only [DataGenerator.resolveFields, hk]
      exact ih acc hfg hcount hacc
    | some k =>
      rw [hk] at hcount
      by_cases hkk : k = key
      · subst hkk
        rw [List.count_cons_self] at hcount
        have h0 : (gs.filterMap fieldKeyOf).count k = 0 := by omega
        have hnot : k ∉ gs.filterMap fieldKeyOf := List.count_eq_zero.mp h0
        have hfg : f = g := by
          rcases List.mem_cons.mp hmem with h | h
          · exact h
          · exact absurd (List.mem_filterMap.mpr ⟨f, h, hfk⟩) hnot
        subst hfg
        simp only [DataGenerator.resolveFields, hk, hbr]
        cases hg : DataGenerator.generate_field_value env pc f with
        | some v =>
          simp only [hg]
          rw [resolveFields_lookup_not_mem env pc br k gs _ hnot,
            lookupA_insertA_self]
        | none =>
          simp only [hg]
          rw [resolveFields_lookup_not_mem env pc br k gs _ hnot, hacc]
      · have hcount' : (gs.filterMap fieldKeyOf).count key = 1 := by
          rwa [List.count_cons_of_ne (fun e => hkk e.symm)] at hcount
        have hfg : f ∈ gs := by
          rcases List.mem_cons.mp hmem with rfl | hm
          · rw [hfk] at hk
            exact absurd (Option.some.inj hk).symm hkk
          · exact hm
        simp only [DataGenerator.resolveFields, hk]
        cases hbr2 : lookupA br k with
        | some v =>
          simp only [hbr2]
          exact ih _ hfg hcount' (by rw [lookupA_insertA_ne _ _ _ _ hkk]; exact hacc)
        | none =>
          simp only [hbr2]
          cases hg : DataGenerator.generate_field_value env pc g with
          | some v =>
            simp only [hg]
            exact ih _ hfg hcount' (by rw [lookupA_insertA_ne _ _ _ _ hkk]; exact hacc)
          | none =>
            simp only [hg]
            exact ih _ hfg hcount' hacc

/-- The resolution loop never duplicates a key. -/
theorem resolveFields_keys_nodup (env : DataGenerator.GenEnv)
    (pc : Option PageContext) (br : List (String × String))
    (fields : List Field) :
    ∀ (acc : List (String × PyVal)), (keysA acc).Nodup →
      (keysA (DataGenerator.resolveFields env pc br fields acc)).Nodup := by
  induction fields with
  | nil => intro acc h; exact h
  | cons f fs ih =>
    intro acc h
    cases hk : fieldKeyOf f with
    | none =>
      simp only [DataGenerator.resolveFields, hk]
      exact ih acc h
    | some k =>
      simp only [DataGenerator.resolveFields, hk]
      cases hbr : lookupA br k with
      | some v =>
        simp only [hbr]
        exact ih _ (nodup_keysA_insertA _ _ _ h)
      | none =>
        simp only [hbr]
        cases hg : DataGenerator.generate_field_value env pc f with
        | some v =>
          simp only [hg]
          exact ih _ (nodup_keysA_insertA _ _ _ h)
        | none =>
          simp only [hg]
          exact ih acc h

/-- Every key of the resolved map is the key of some field (or was in the
accumulator). -/
theorem resolveFields_keys_mem (env : DataGenerator.GenEnv)
    (pc : Option PageContext) (br : List (String × String))
    (fields : List Field) :
    ∀ (acc : List (String × PyVal)) (k : String),
      k ∈ keysA (DataGenerator.resolveFields env pc br fields acc) →
      k ∈ keysA acc ∨ k ∈ fields.filterMap fieldKeyOf := by
  induction fields with
  | nil => intro acc k h; exact Or.inl h
  | cons f fs ih =>
    intro acc k h
    rw [List.filterMap_cons]
    cases hk : fieldKeyOf f with
    | none =>
      simp only [DataGenerator.resolveFields, hk] at h
      rcases ih acc k h with h' | h'
      · exact Or.inl h'
      · exact Or.inr h'
    | some key' =>
      have step : ∀ v : PyVal,
          k ∈ keysA (DataGenerator.resolveFields env pc br fs (insertA acc key' v)) →
          k ∈ keysA acc ∨ k ∈ key' :: fs.filterMap fieldKeyOf := by
        intro v hv
        rcases ih _ k hv with h' | h'
        · rcases (mem_keysA_insertA _ _ _ _).mp h' with h'' | h''
          · exact Or.inl h''
          · exact Or.inr (by rw [h'']; exact List.mem_cons_self _ _)
        · exact Or.inr (List.mem_cons_of_mem _ h')
      simp only [DataGenerator.resolveFields, hk] at h
      cases hbr : lookupA br key' with
      | some v =>
        rw [hbr] at h
        exact step _ h
      | none =>
        rw [hbr] at h
        cases hg : DataGenerator.generate_field_value env pc f with
        | some v =>
          rw [hg] at h
          exact step _ h
        | none =>
          rw [hg] at h
          rcases ih acc k h with h' | h'
          · exact Or.inl h'
          · exact Or.inr (List.mem_cons_of_mem _ h')


/-- The set of attempted fields depends only on the data map, not on the
fill outcomes: the executor never aborts early. -/
theorem fillLoop_attempted (env : FormGeniusAgent.FillEnv)
    (data : List (String × PyVal)) (fields : List Field) :
    ∀ (st : FormGeniusAgent.FillState),
      (FormGeniusAgent.fillLoop env data fields st).attempted =
        st.attempted ++ fields.filterMap
          (fun f => (fieldKeyOf f).bind
            (fun k => if (lookupA data k).isSome then some k else none)) := by
  induction fields with
  | nil => intro st; simp [FormGeniusAgent.fillLoop]
  | cons f fs ih =>
    intro st
    rw [List.filterMap_cons]
    cases hk : fieldKeyOf f with
    | none =>
      simp only [FormGeniusAgent.fillLoop, hk]
      rw [ih st]
      simp
    | some k =>
      cases hv : lookupA data k with
      | none =>
        simp only [FormGeniusAgent.fillLoop, hk, hv]
        rw [ih st]
        simp [Option.bind, hv]
      | some v =>
        simp only [FormGeniusAgent.fillLoop, hk, hv]
        cases ho : env.outcome f v with
        | ok =>
          simp only [ho]
          rw [ih]
          simp [Option.bind, hv, List.append_assoc]
        | failed =>
          simp only [ho]
          rw [ih]
          simp [Option.bind, hv, List.append_assoc]
        | raised =>
          simp only [ho]
          rw [ih]
          simp [Option.bind, hv, List.append_assoc]

/-- Error count plus fill count equals the number of attempted fields. -/
theorem fillLoop_count (env : FormGeniusAgent.FillEnv)
    (data : List (String × PyVal)) (fields : List Field) :
    ∀ (st : FormGeniusAgent.FillState),
      (FormGeniusAgent.fillLoop env data fields st).errors.length +
        (FormGeniusAgent.fillLoop env data fields st).filled =
      st.errors.length + st.filled +
        (fields.filterMap
          (fun f => (fieldKeyOf f).bind
            (fun k => if (lookupA data k).isSome then some k else none))).length := by
  induction fields with
  | nil => intro st; simp [FormGeniusAgent.fillLoop]
  | cons f fs ih =>
    intro st
    rw [List.filterMap_cons]
    cases hk : fieldKeyOf f with
    | none =>
      simp only [FormGeniusAgent.fillLoop, hk]
      rw [ih st]
      simp
    | some k =>
      cases hv : lookupA data k with
      | none =>
        simp only [FormGeniusAgent.fillLoop, hk, hv]
        rw [ih st]
        simp [Option.bind, hv]
      | some v =>
        simp only [FormGeniusAgent.fillLoop, hk, hv]
        cases ho : env.outcome f v with
        | ok =>
          simp only [ho]
          have h := ih { st with filled := st.filled + 1, attempted := st.attempted ++ [k], page := insertA st.page k v }
          simp [hv] at h ⊢
          omega
        | failed =>
          simp only [ho]
          have h := ih { st with errors := st.errors ++ ["Failed to fill field: " ++ k], attempted := st.attempted ++ [k] }
          simp [hv] at h ⊢
          omega
        | raised =>
          simp only [ho]
          have h := ih { st with errors := st.errors ++ ["Error filling field " ++ k], attempted := st.attempted ++ [k] }
          simp [hv] at h ⊢
          omega

/-- Folding constant-valued inserts: any folded-in or pre-existing key
looks up to the constant. -/
theorem lookupA_foldl_insert_const {α : Type} (v : α) (ks : List String) :
    ∀ (acc : List (String × α)), (∀ e ∈ acc, e.2 = v) →
      ∀ k, (k ∈ ks ∨ k ∈ keysA acc) →
      lookupA (ks.foldl (fun a k' => insertA a k' v) acc) k = some v := by
  induction ks with
  | nil =>
    intro acc hacc k hk
    rcases hk with hk | hk
    · exact absurd hk (List.not_mem_nil k)
    · exact lookupA_const acc k v hacc hk
  | cons k0 rest ih =>
    intro acc hacc k hk
    rw [List.foldl_cons]
    apply ih (insertA acc k0 v)
    · intro e he
      rcases mem_insertA _ _ _ _ he with h | h
      · exact hacc e h
      · rw [h]
    · rcases hk with hk | hk
      · rcases List.mem_cons.mp hk with rfl | hk'
        · exact Or.inr ((mem_keysA_insertA _ _ _ _).mpr (Or.inr rfl))
        · exact Or.inl hk'
      · exact Or.inr ((mem_keysA_insertA _ _ _ _).mpr (Or.inl hk))

/-- When the AI tier is off and the rule-based invalid value is a fixed
payload, the invalid-data loop is a fold of payload inserts over the
fields' keys. -/
theorem invalidFields_payload (env : DataGenerator.GenEnv)
    (pc : Option PageContext) (sc : String) (pv : PyVal)
    (hai : env.aiAvailable = false)
    (hrule : ∀ f, DataGenerator.generate_invalid_field_value env f sc pc =
      .ok (some pv)) (fields : List Field) :
    ∀ (acc : List (String × PyVal)),
      DataGenerator.invalidFields env pc sc fields acc =
        .ok ((fields.filterMap fieldKeyOf).foldl
          (fun a k => insertA a k pv) acc) := by
  induction fields with
  | nil => intro acc; rfl
  | cons f fs ih =>
    intro acc
    rw [List.filterMap_cons]
    cases hk : fieldKeyOf f with
    | none =>
      simp only [DataGenerator.invalidFields, hk]
      exact ih acc
    | some k =>
      simp only [DataGenerator.invalidFields, hk, hai, if_false, hrule f]
      rw [List.foldl_cons]
      simpa using ih (insertA acc k pv)


/-- C3: for every page oracle — in particular one that keeps the
second-factor prompt visible and never shows a success URL or marker —
the 2FA wait loop exits its very first iteration with
`authenticated = true` and zero sleeps, because splitting each success
pattern on `*` yields empty strings that are substrings of every URL.
The `FAILED`/timeout outcome after 60 iterations that the claim describes
is unreachable. -/
theorem c3_2fa_first_iteration (page : MicrosoftAuthenticator.AuthPage) :
    MicrosoftAuthenticator.handle_2fa_loop page =
      { authenticated := true, iterations := 1, sleeps := 0 } := by
  unfold MicrosoftAuthenticator.handle_2fa_loop
  simp [MicrosoftAuthenticator.handle_2fa_wait, urlIndicatesSuccess_true]

/-- C7 counterexample: on the spec's own option list and desired value
`"USA"`, the matcher resolves at strategy 4 (first non-placeholder
fallback), not at strategy 3 (substring), refuting "specifically at the
substring tier". -/
theorem c7_option_match_cex :
    (PlaywrightMCPClient.fill_select_field c7Options "USA").map Prod.fst =
      some 4 := by decide

/-- C7 (amended): the matcher selects the option with value `"us"`, at the
fourth tier — `"usa"` and `"united states"` contain each other in neither
direction, so the substring tier cannot fire — and never the empty-valued
placeholder. -/
theorem c7_option_match_amended :
    PlaywrightMCPClient.fill_select_field c7Options "USA" =
      some (4, ⟨"us", "United States"⟩) ∧
    pyIn (pyStrip (pyLower "USA")) (pyStrip (pyLower "United States")) = false ∧
    pyIn (pyStrip (pyLower "United States")) (pyStrip (pyLower "USA")) = false ∧
    (⟨"us", "United States"⟩ : OptionItem).value = "us" := by decide

/-- C9: the time filler maps the 3-digit string `"930"` to `"93:0"`
(slicing `[:2]`/`[2:4]` unconditionally), not to the well-formed `"09:30"`
the claim requires; 4-digit strings and already-colon-separated values
behave as claimed. -/
theorem c9_time_normalization_bug :
    PlaywrightMCPClient.fill_time_field "930" = "93:0" ∧
    PlaywrightMCPClient.fill_time_field "1430" = "14:30" ∧
    PlaywrightMCPClient.fill_time_field "09:30" = "09:30" := by decide

/-- C1 counterexample: with the generative batch returning `"batchval"`
for the credential-matching field `username` and a page credential hint
`admin`, the resolved map carries the batch value, not the hint value:
the credential tier does not take precedence over batch-generated data. -/
theorem c1_credential_cex :
    lookupA (DataGenerator.generate_form_data c1Env ⟨[c1Field]⟩ (some c1Ctx)).1
        "username" = some (.str "batchval") ∧
    c1Ctx.credentials = [{ ctype := "username", value := "admin" }] := by decide

/-- C2 counterexample: an optional number field with an inverted
`min`/`max` range makes `random.randint` raise inside the strategy; the
`except` returns `None` and the field is dropped, so the resolved map has
zero entries for it — neither "exactly one entry per field" nor the
empty-string fallback for optional fields holds. -/
theorem c2_resolution_cex :
    (DataGenerator.generate_form_data {} ⟨[c2Field]⟩ none).1 = [] ∧
    fieldKeyOf c2Field = some "n" ∧ c2Field.required = false := by decide

/-- C6 counterexample: the batch response covers field `a` and omits field
`x`, yet the call trace contains zero `AIService.generate_field_value`
invocations (the claim demands exactly one for `x`); `x` is resolved by
the rule-based fallback directly. -/
theorem c6_single_regen_cex :
    (DataGenerator.generate_form_data c6Env c6Form none).2.countP
        (fun c => DataGenerator.isSingleGen c) = 0 ∧
    lookupA c6Env.batchResults "x" = none ∧
    lookupA (DataGenerator.generate_form_data c6Env c6Form none).1 "x" =
      some (.str "") := by decide


/-- C1 (amended): when a field matching a supplied credential hint is NOT
resolved by the batch call (service unavailable, or its key absent from
the batch response), the resolved value equals the hint's value; a field
covered by the batch response takes the batch value (see the
counterexample). -/
theorem c1_credential_amended (env : DataGenerator.GenEnv) (form : Form)
    (ctx : PageContext) (f : Field) (key : String) (c : CredentialHint)
    (hcred : ctx.credentials = [c])
    (hf : f ∈ form.fields) (hk : fieldKeyOf f = some key)
    (hcount : (form.fields.filterMap fieldKeyOf).count key = 1)
    (hbatch : key ∉ keysA (if env.aiAvailable then env.batchResults else []))
    (hmatch : ((pyIn "user" (pyLower c.ctype) &&
        anyKeywordIn ["username", "user", "login", "email"]
          (pyLower (pyLower (f.name.getD "") ++ " " ++ pyLower (f.label.getD ""))))
      || (pyIn "password" (pyLower c.ctype) &&
        pyIn "password"
          (pyLower (pyLower (f.name.getD "") ++ " " ++ pyLower (f.label.getD ""))))) = true) :
    lookupA (DataGenerator.generate_form_data env form (some ctx)).1 key =
      some (.str c.value) := by
  have hov : DataGenerator.credential_override (some ctx)
      (pyLower (f.name.getD "")) (pyLower (f.label.getD "")) = some c.value := by
    simp only [DataGenerator.credential_override, hcred, List.isEmpty_cons,
      Bool.false_eq_true, if_false]
    unfold DataGenerator.findCred
    have hm2 : (pyIn "user" (pyLower c.ctype) = true ∧
        anyKeywordIn ["username", "user", "login", "email"]
          (pyLower (pyLower (f.name.getD "") ++ " " ++
            pyLower (f.label.getD ""))) = true) ∨
        (pyIn "password" (pyLower c.ctype) = true ∧
        pyIn "password" (pyLower (pyLower (f.name.getD "") ++ " " ++
          pyLower (f.label.getD ""))) = true) := by
      simpa using hmatch
    rcases hm2 with ⟨h1, h2⟩ | ⟨h1, h2⟩
    · simp [h1, h2]
    · by_cases hcd : ((pyIn "username" (pyLower c.ctype) ||
          pyIn "user" (pyLower c.ctype)) &&
          anyKeywordIn ["username", "user", "login", "email"]
            (pyLower (pyLower (f.name.getD "") ++ " " ++
              pyLower (f.label.getD "")))) = true
      · simp [hcd]
      · simp [hcd, h1, h2]
  have hgen : DataGenerator.generate_field_value env (some ctx) f =
      some (.str c.value) := by
    simp [DataGenerator.generate_field_value, hov]
  have hbr : lookupA (if env.aiAvailable then env.batchResults else []) key =
      none := lookupA_none_of_not_mem _ _ hbatch
  have hmain := resolveFields_lookup_miss env (some ctx)
    (if env.aiAvailable then env.batchResults else []) f key hk hbr
    form.fields [] hf hcount rfl
  simp only [DataGenerator.generate_form_data]
  rw [hmain, hgen]

/-- C1 witness: with the service unavailable, the page hint `admin` is the
resolved value of the `username` field. -/
theorem c1_credential_witness :
    lookupA (DataGenerator.generate_form_data {} ⟨[c1Field]⟩ (some c1Ctx)).1
        "username" = some (.str "admin") :=
  c1_credential_amended {} ⟨[c1Field]⟩ c1Ctx c1Field "username"
    { ctype := "username", value := "admin" } rfl (by decide) (by decide)
    (by decide) (by decide) (by decide)

/-- C2 (amended): resolution never raises (the embedding is total, with
strategy exceptions modelled and caught as in the source) and the resolved
map binds each key at most once, every key coming from some field's
name-or-id; a field without a key, or whose strategy raises, simply has no
entry (there is no empty-string fallback tier). -/
theorem c2_resolution_amended (env : DataGenerator.GenEnv) (form : Form)
    (pc : Option PageContext) :
    (keysA (DataGenerator.generate_form_data env form pc).1).Nodup ∧
    ∀ k ∈ keysA (DataGenerator.generate_form_data env form pc).1,
      k ∈ form.fields.filterMap fieldKeyOf := by
  constructor
  · simp only [DataGenerator.generate_form_data]
    exact resolveFields_keys_nodup env pc _ form.fields [] (by simp [keysA])
  · intro k hk
    simp only [DataGenerator.generate_form_data] at hk
    rcases resolveFields_keys_mem env pc _ form.fields [] k hk with h | h
    · simp [keysA] at h
    · exact h

/-- C2 witness: on a one-field form the resolved map has nodup keys and
its key `t` comes from the field. -/
theorem c2_resolution_witness :
    (keysA (DataGenerator.generate_form_data {} ⟨[c2FieldB]⟩ none).1).Nodup ∧
    "t" ∈ (⟨[c2FieldB]⟩ : Form).fields.filterMap fieldKeyOf :=
  ⟨(c2_resolution_amended {} ⟨[c2FieldB]⟩ none).1,
   (c2_resolution_amended {} ⟨[c2FieldB]⟩ none).2 "t" (by decide)⟩

/-- C4: whenever direct parsing (a) and brace-block parsing (b) both fail,
the batch call returns the empty map and `json.loads` is never consulted
on anything else: reaching approach (c) raises `re.error` (Python's `re`
has no recursive `(?1)` extension), the outer handler returns `{}`, and
the quote-rewriting approach (d) never runs — refuting the claimed
four-strategy cascade, though the empty-map-not-raise part holds. -/
theorem c4_extraction_strategies
    (parse : String → Option (List (String × String)))
    (fields : List Field) (response : String)
    (h1 : parse response = none)
    (h2 : ∀ b, AIService.braceBlock response = some b → parse b = none) :
    (AIService.batch_generate_field_values parse true fields (some response)).1 =
      [] ∧
    ∀ s ∈ (AIService.batch_generate_field_values parse true fields
        (some response)).2,
      s = response ∨ AIService.braceBlock response = some s := by
  by_cases hfe : fields.isEmpty
  · constructor
    · simp [AIService.batch_generate_field_values, hfe]
    · intro s hs
      simp [AIService.batch_generate_field_values, hfe] at hs
  · cases hb : AIService.braceBlock response with
    | none =>
      constructor
      · simp [AIService.batch_generate_field_values, AIService.extract_json,
          hfe, h1, hb]
      · intro s hs
        simp [AIService.batch_generate_field_values, AIService.extract_json,
          hfe, h1, hb] at hs
        exact Or.inl hs
    | some b =>
      constructor
      · simp [AIService.batch_generate_field_values, AIService.extract_json,
          hfe, h1, hb, h2 b hb]
      · intro s hs
        simp [AIService.batch_generate_field_values, AIService.extract_json,
          hfe, h1, hb, h2 b hb] at hs
        rcases hs with rfl | rfl
        · exact Or.inl rfl
        · exact Or.inr rfl

/-- C4 witness: on the single-quoted reply `{'name': 'Bob'}` with a parser
that rejects both the full response and the extracted block, the batch
call yields the empty map, having consulted the parser on at most the
response and its brace block. -/
theorem c4_extraction_witness :
    (AIService.batch_generate_field_values (fun _ => none) true [c4Field]
        (some c4Response)).1 = [] ∧
    ∀ s ∈ (AIService.batch_generate_field_values (fun _ => none) true [c4Field]
        (some c4Response)).2,
      s = c4Response ∨ AIService.braceBlock c4Response = some s :=
  c4_extraction_strategies (fun _ => none) [c4Field] c4Response rfl
    (fun _ _ => rfl)


/-- C5: `_fill_form_fields` reports success exactly when `errors` is
empty; the set of attempted fields is determined by the value map alone
(no early abort, no raise past the boundary — the embedding is total and
each outcome only appends); every attempted field lands in `errors` or in
the fill count; and on the concrete 5-field form where `f2` and `f4` fail,
the result is 2 errors, 3 filled, overall failure, and the three
successful values remain set on the page (no rollback). -/
theorem c5_fill_partial_failure :
    (∀ (env : FormGeniusAgent.FillEnv) (form : Form)
        (data page0 : List (String × PyVal)),
      ((FormGeniusAgent.fill_form_fields env form data page0).1.success = true ↔
        (FormGeniusAgent.fill_form_fields env form data page0).1.errors = []) ∧
      (FormGeniusAgent.fill_form_fields env form data page0).1.attempted =
        form.fields.filterMap
          (fun f => (fieldKeyOf f).bind
            (fun k => if (lookupA data k).isSome then some k else none)) ∧
      (FormGeniusAgent.fill_form_fields env form data page0).1.errors.length +
          (FormGeniusAgent.fill_form_fields env form data page0).1.filled_fields =
        (FormGeniusAgent.fill_form_fields env form data page0).1.attempted.length) ∧
    (FormGeniusAgent.fill_form_fields c5Env c5Form c5Data []).1.errors.length = 2 ∧
    (FormGeniusAgent.fill_form_fields c5Env c5Form c5Data []).1.filled_fields = 3 ∧
    (FormGeniusAgent.fill_form_fields c5Env c5Form c5Data []).1.success = false ∧
    (FormGeniusAgent.fill_form_fields c5Env c5Form c5Data []).1.total_fields = 5 ∧
    lookupA (FormGeniusAgent.fill_form_fields c5Env c5Form c5Data []).2 "f1" =
      some (.str "v1") ∧
    lookupA (FormGeniusAgent.fill_form_fields c5Env c5Form c5Data []).2 "f3" =
      some (.str "v3") ∧
    lookupA (FormGeniusAgent.fill_form_fields c5Env c5Form c5Data []).2 "f5" =
      some (.str "v5") := by
  refine ⟨?_, by decide, by decide, by decide, by decide, by decide,
    by decide, by decide⟩
  intro env form data page0
  refine ⟨?_, ?_, ?_⟩
  · simp [FormGeniusAgent.fill_form_fields, List.isEmpty_iff]
  · simp only [FormGeniusAgent.fill_form_fields]
    rw [fillLoop_attempted]
    simp
  · simp only [FormGeniusAgent.fill_form_fields]
    have hc := fillLoop_count env data form.fields { page := page0 }
    have ha := fillLoop_attempted env data form.fields { page := page0 }
    simp only [ha]
    simp at hc ⊢
    omega

/-- C6 (amended): a field whose key the batch response omits receives no
single-field generative attempt at all — the trace of `AIService` calls
contains zero `generate_field_value` invocations — and its final map entry
is exactly the rule-based `_generate_field_value` outcome (present iff
that outcome is not `None`). -/
theorem c6_single_regen_amended (env : DataGenerator.GenEnv) (form : Form)
    (pc : Option PageContext) (f : Field) (key : String)
    (hai : env.aiAvailable = true)
    (hf : f ∈ form.fields) (hk : fieldKeyOf f = some key)
    (hcount : (form.fields.filterMap fieldKeyOf).count key = 1)
    (hbatch : key ∉ keysA env.batchResults) :
    lookupA (DataGenerator.generate_form_data env form pc).1 key =
      DataGenerator.generate_field_value env pc f ∧
    (DataGenerator.generate_form_data env form pc).2.countP
      (fun c => DataGenerator.isSingleGen c) = 0 := by
  constructor
  · have hbr : lookupA (if env.aiAvailable then env.batchResults else []) key =
        none := by
      rw [hai]
      exact lookupA_none_of_not_mem _ _ hbatch
    have hmain := resolveFields_lookup_miss env pc
      (if env.aiAvailable then env.batchResults else []) f key hk hbr
      form.fields [] hf hcount rfl
    simp only [DataGenerator.generate_form_data]
    exact hmain
  · simp [DataGenerator.generate_form_data, hai, DataGenerator.isSingleGen]

/-- C6 witness: on the two-field form whose batch response omits `x`, the
map entry for `x` is the rule-based value and no single-field generative
call is traced. -/
theorem c6_single_regen_witness :
    lookupA (DataGenerator.generate_form_data c6Env c6Form none).1 "x" =
      DataGenerator.generate_field_value c6Env none c6FieldX ∧
    (DataGenerator.generate_form_data c6Env c6Form none).2.countP
      (fun c => DataGenerator.isSingleGen c) = 0 :=
  c6_single_regen_amended c6Env c6Form none c6FieldX "x" rfl (by decide)
    (by decide) (by decide) (by decide)

/-- C8: `_fill_date_field` maps `"12/31/2023"` to `"2023-12-31"`, is
idempotent on the already-ISO `"2023-12-31"`, rewrites every
`M/D/YYYY`-shaped value (two slash separators, length-4 year segment) to
`YYYY-MM-DD` with zero-padded month and day, and passes every other value
through unchanged. -/
theorem c8_date_normalization :
    PlaywrightMCPClient.fill_date_field "12/31/2023" = "2023-12-31" ∧
    PlaywrightMCPClient.fill_date_field "2023-12-31" = "2023-12-31" ∧
    (∀ m d y : String, '/' ∉ m.toList → '/' ∉ d.toList → '/' ∉ y.toList →
      pyLen y = 4 →
      PlaywrightMCPClient.fill_date_field (m ++ "/" ++ d ++ "/" ++ y) =
        y ++ "-" ++ pyZfill 2 m ++ "-" ++ pyZfill 2 d) ∧
    (∀ v : String,
      (∀ m d y : String, pySplit '/' v = [m, d, y] → pyLen y ≠ 4) →
      PlaywrightMCPClient.fill_date_field v = v) := by
  refine ⟨by decide, by decide, ?_, ?_⟩
  · intro m d y hm hd hy hlen
    simp only [PlaywrightMCPClient.fill_date_field,
      pySplit_slash_three m d y hm hd hy]
    rw [if_pos hlen]
  · intro v hv
    simp only [PlaywrightMCPClient.fill_date_field]
    cases hs : pySplit '/' v with
    | nil => rfl
    | cons a t =>
      cases t with
      | nil => rfl
      | cons b u =>
        cases u with
        | nil => rfl
        | cons e w =>
          cases w with
          | nil =>
            show (if pyLen e = 4 then
              e ++ "-" ++ pyZfill 2 a ++ "-" ++ pyZfill 2 b else v) = v
            exact if_neg (hv a b e hs)
          | cons g x => rfl

/-- C8 witness: the general rewrite at `1/2/2023` and the pass-through at
the slash-free `"31-12-2023"`. -/
theorem c8_date_witness :
    PlaywrightMCPClient.fill_date_field ("1" ++ "/" ++ "2" ++ "/" ++ "2023") =
      "2023" ++ "-" ++ pyZfill 2 "1" ++ "-" ++ pyZfill 2 "2" ∧
    PlaywrightMCPClient.fill_date_field "31-12-2023" = "31-12-2023" := by
  constructor
  · exact c8_date_normalization.2.2.1 "1" "2" "2023" (by decide) (by decide)
      (by decide) (by decide)
  · apply c8_date_normalization.2.2.2
    intro m d y h
    have h2 : (["31-12-2023"] : List String) = [m, d, y] :=
      (show pySplit '/' "31-12-2023" = ["31-12-2023"] by decide).symm.trans h
    simp at h2

/-- C10: with the generative service unavailable, invalid-data resolution
for the `sql_injection_attempt` and `xss_attempt` scenarios is exactly a
fold that binds every field key (name-or-id) to the corresponding literal
payload, regardless of the field's type; looking up any field's key yields
the payload, so no field receives normal tier resolution. -/
theorem c10_injection_payloads (env : DataGenerator.GenEnv) (form : Form)
    (pc : Option PageContext) (hai : env.aiAvailable = false) :
    (DataGenerator.generate_invalid_data env form "sql_injection_attempt" pc =
      Except.ok ((form.fields.filterMap fieldKeyOf).foldl
        (fun a k => insertA a k (PyVal.str DataGenerator.sqlPayload)) []) ∧
     DataGenerator.generate_invalid_data env form "xss_attempt" pc =
      Except.ok ((form.fields.filterMap fieldKeyOf).foldl
        (fun a k => insertA a k (PyVal.str DataGenerator.xssPayload)) [])) ∧
    (∀ f ∈ form.fields, ∀ k, fieldKeyOf f = some k →
      lookupA ((form.fields.filterMap fieldKeyOf).foldl
          (fun a k' => insertA a k' (PyVal.str DataGenerator.sqlPayload)) []) k =
        some (PyVal.str DataGenerator.sqlPayload) ∧
      lookupA ((form.fields.filterMap fieldKeyOf).foldl
          (fun a k' => insertA a k' (PyVal.str DataGenerator.xssPayload)) []) k =
        some (PyVal.str DataGenerator.xssPayload)) := by
  refine ⟨⟨?_, ?_⟩, ?_⟩
  · exact invalidFields_payload env pc "sql_injection_attempt"
      (PyVal.str DataGenerator.sqlPayload) hai (fun f => rfl) form.fields []
  · exact invalidFields_payload env pc "xss_attempt"
      (PyVal.str DataGenerator.xssPayload) hai (fun f => rfl) form.fields []
  · intro f hf k hk
    constructor
    · exact lookupA_foldl_insert_const _ _ [] (by simp) k
        (Or.inl (List.mem_filterMap.mpr ⟨f, hf, hk⟩))
    · exact lookupA_foldl_insert_const _ _ [] (by simp) k
        (Or.inl (List.mem_filterMap.mpr ⟨f, hf, hk⟩))

/-- C10 witness: a checkbox field named `agree` receives the literal SQL
payload under the `sql_injection_attempt` scenario. -/
theorem c10_injection_witness :
    DataGenerator.generate_invalid_data {} ⟨[c10Field]⟩
        "sql_injection_attempt" none =
      Except.ok ((((⟨[c10Field]⟩ : Form)).fields.filterMap fieldKeyOf).foldl
        (fun a k => insertA a k (PyVal.str DataGenerator.sqlPayload)) []) ∧
    lookupA ((((⟨[c10Field]⟩ : Form)).fields.filterMap fieldKeyOf).foldl
        (fun a k' => insertA a k' (PyVal.str DataGenerator.sqlPayload)) []) "agree" =
      some (PyVal.str DataGenerator.sqlPayload) :=
  ⟨(c10_injection_payloads {} ⟨[c10Field]⟩ none rfl).1.1,
   ((c10_injection_payloads {} ⟨[c10Field]⟩ none rfl).2 c10Field (by decide)
     "agree" (by decide)).1⟩


/-- C3 witness: a page that stays on the 2FA prompt forever is still
declared authenticated after one iteration and zero sleeps. -/
theorem c3_2fa_witness :
    MicrosoftAuthenticator.handle_2fa_loop c3Page =
      { authenticated := true, iterations := 1, sleeps := 0 } :=
  c3_2fa_first_iteration c3Page

end FormGenius
